import Mathlib

/-
Verification development for the DSC incidence-simplicial-complex core
(src/is_mesh/is_mesh_API.h).  The mesh is embedded shallowly: simplices of the
four kinds are identified by natural-number keys; liveness is a list of keys
per kind; down-links (edge to nodes, face to edges, tetrahedron to faces),
region labels and positions form the static part of the state, and the
boundary/interface/crossing flags form the mutable flag part.  The kernel
layer (is_mesh.h) is not part of the excerpted sources, so the navigator
queries (star, closure, link) and the structural split/collapse helpers are
modelled from the specification, as marked on each such definition; every
other definition is translated from is_mesh_API.h.
-/

set_option autoImplicit false

namespace DSC

/-- Classification flags carried by a simplex: boundary, interface, crossing. -/
structure Flags where
  boundary : Bool
  interface : Bool
  crossing : Bool
  deriving DecidableEq

/-- Static (topological) part of the mesh state: live keys per simplex kind,
fresh-key counters per pool, down-link incidence functions, per-tetrahedron
region labels and per-node positions. -/
structure Topo where
  nodesLive : List Nat
  edgesLive : List Nat
  facesLive : List Nat
  tetsLive : List Nat
  nextNode : Nat
  nextEdge : Nat
  nextFace : Nat
  nextTet : Nat
  edgeNodes : Nat → List Nat
  faceEdges : Nat → List Nat
  tetFaces : Nat → List Nat
  label : Nat → Int
  pos : Nat → Int × Int × Int

/-- The flag assignment of the whole complex, one flag record per key of
each simplex kind. -/
structure FlagMap where
  node : Nat → Flags
  edge : Nat → Flags
  face : Nat → Flags

/-- Full mesh state: static topology plus flag assignment. -/
structure Mesh where
  topo : Topo
  fl : FlagMap

/-- A typed container of key sets across the four levels, as in the
simplex-set algebra component. -/
structure SimplexSet where
  ns : List Nat
  es : List Nat
  fs : List Nat
  ts : List Nat

/-! ### Navigator queries

Modelled from the spec, section 4.3: the star of a simplex collects every
simplex that has it in its closure, the closure collects every simplex it
contains.  The kernel that stores the up-links is not under src, so these are
derived from the down-link incidence functions. -/

/-- Modelled from the spec: tetrahedron level of the star of a face, i.e. the
co-bounding tetrahedra of the face. -/
def starF_tets (τ : Topo) (f : Nat) : List Nat :=
  τ.tetsLive.filter (fun t => decide (f ∈ τ.tetFaces t))

/-- Modelled from the spec: face level of the star of an edge. -/
def starE_faces (τ : Topo) (e : Nat) : List Nat :=
  τ.facesLive.filter (fun f => decide (e ∈ τ.faceEdges f))

/-- Modelled from the spec: tetrahedron level of the star of an edge. -/
def starE_tets (τ : Topo) (e : Nat) : List Nat :=
  τ.tetsLive.filter (fun t => (τ.tetFaces t).any (fun f => decide (e ∈ τ.faceEdges f)))

/-- Modelled from the spec: edge level of the star of a node. -/
def starN_edges (τ : Topo) (n : Nat) : List Nat :=
  τ.edgesLive.filter (fun e => decide (n ∈ τ.edgeNodes e))

/-- Modelled from the spec: face level of the star of a node. -/
def starN_faces (τ : Topo) (n : Nat) : List Nat :=
  τ.facesLive.filter (fun f => (τ.faceEdges f).any (fun e => decide (n ∈ τ.edgeNodes e)))

/-- Modelled from the spec: tetrahedron level of the star of a node. -/
def starN_tets (τ : Topo) (n : Nat) : List Nat :=
  τ.tetsLive.filter (fun t =>
    (τ.tetFaces t).any (fun f => (τ.faceEdges f).any (fun e => decide (n ∈ τ.edgeNodes e))))

/-- Modelled from the spec: node level of the closure of a face. -/
def faceNodes (τ : Topo) (f : Nat) : List Nat :=
  (((τ.faceEdges f).map τ.edgeNodes).flatten).dedup

/-- Modelled from the spec: edge level of the closure of a tetrahedron (the 6
bounding edges, found by walking the bounding faces and de-duplicating). -/
def tetEdges (τ : Topo) (t : Nat) : List Nat :=
  (((τ.tetFaces t).map τ.faceEdges).flatten).dedup

/-- Modelled from the spec: node level of the closure of a tetrahedron. -/
def tetNodes (τ : Topo) (t : Nat) : List Nat :=
  (((tetEdges τ t).map τ.edgeNodes).flatten).dedup

/-- Modelled from the spec: node level of the link of an edge, the closure of
the star of the edge minus the closure of the edge. -/
def linkE_nodes (τ : Topo) (e : Nat) : List Nat :=
  (((starE_tets τ e).map (tetNodes τ)).flatten ++ ((starE_faces τ e).map (faceNodes τ)).flatten).dedup.filter
    (fun n => decide (n ∉ τ.edgeNodes e))

/-! ### Lookup functions translated from is_mesh_API.h -/

/-- Translation of get_tet(t, f): walk the tetrahedra in the star of f and
return the first one different from t; an invalid key (here none) if there is
no such tetrahedron. -/
def get_tet (τ : Topo) (t : Nat) (f : Nat) : Option Nat :=
  (starF_tets τ f).find? (fun t2 => t2 != t)

/-- The size-one check shared by the intersection-based lookups: the single
member when the list has exactly one, an invalid key (none) otherwise. -/
def uniqueResult : List Nat → Option Nat
  | [x] => some x
  | _ => none

/-- Translation of get_edge(n1, n2): intersect the stars of the two nodes at
the edge level and require exactly one result; otherwise an invalid key. -/
def get_edge (m : Mesh) (n1 n2 : Nat) : Option Nat :=
  uniqueResult ((starN_edges m.topo n1).filter (fun e => decide (e ∈ starN_edges m.topo n2)))

/-- Translation of get_face(n1, n2, n3): intersect the stars of the three
nodes at the face level and require exactly one result. -/
def get_face (m : Mesh) (n1 n2 n3 : Nat) : Option Nat :=
  uniqueResult (((starN_faces m.topo n1).filter (fun f => decide (f ∈ starN_faces m.topo n2))).filter
      (fun f => decide (f ∈ starN_faces m.topo n3)))

/-! ### Flag propagation engine translated from is_mesh_API.h -/

/-- Translation of update_flag(face_key): reset interface and boundary; with
exactly one co-bounding tetrahedron the face is boundary, and interface when
that tetrahedron has a nonzero label; with exactly two co-bounding tetrahedra
the face is interface when their labels differ.  The face crossing flag is
not touched by the source. -/
def update_flag_f (m : Mesh) (f : Nat) : Flags :=
  match starF_tets m.topo f with
  | [t] => ⟨true, decide (m.topo.label t ≠ 0), (m.fl.face f).crossing⟩
  | [t0, t1] => ⟨false, decide (m.topo.label t0 ≠ m.topo.label t1), (m.fl.face f).crossing⟩
  | _ => ⟨false, false, (m.fl.face f).crossing⟩

/-- Translation of update_flag(edge_key): the boundary and interface flags are
the disjunction of the corresponding flags over the faces in the star of the
edge, and the edge is crossing when more than 2 of those faces are
interface. -/
def update_flag_e (m : Mesh) (e : Nat) : Flags :=
  let fs := starE_faces m.topo e
  ⟨fs.any (fun f => (m.fl.face f).boundary),
   fs.any (fun f => (m.fl.face f).interface),
   decide (2 < (fs.filter (fun f => (m.fl.face f).interface)).length)⟩

/-- Translation of connected_component(st_n, t): erase t from the remaining
set, then re-enter through each face of t into the co-bounding tetrahedron on
the other side when it is still in the set and carries the same label.
The fuel argument bounds the recursion depth; callers pass the size of the
set, which suffices because every recursive call first erases a member. -/
def connected_component (τ : Topo) : Nat → List Nat → Nat → List Nat
  | 0, st, _ => st
  | fuel+1, st, t =>
    let lab := τ.label t
    (τ.tetFaces t).foldl
      (fun s f =>
        match get_tet τ t f with
        | some t2 =>
          if s.contains t2 && (lab == τ.label t2) then connected_component τ fuel s t2 else s
        | none => s)
      (st.erase t)

/-- Loop of crossing(node_key): repeatedly remove one label-connected
component from the tetrahedral star; report true as soon as a third component
is discovered. -/
def crossingAux (τ : Topo) : Nat → Nat → List Nat → Bool
  | 0, _, _ => false
  | fuel+1, c, st =>
    match st with
    | [] => false
    | t :: _ => if c = 2 then true else crossingAux τ fuel (c+1) (connected_component τ st.length st t)

/-- Translation of crossing(node_key): the tetrahedral star of the node
decomposes into at least 3 label-connected components. -/
def crossing (τ : Topo) (n : Nat) : Bool :=
  let st := starN_tets τ n
  crossingAux τ (st.length + 1) 0 st

/-- The same component-removal loop as crossing(node_key), run to completion
and counting the removed label-connected components of a tetrahedron set. -/
def countAux (τ : Topo) : Nat → List Nat → Nat
  | 0, _ => 0
  | fuel+1, st =>
    match st with
    | [] => 0
    | t :: _ => countAux τ fuel (connected_component τ st.length st t) + 1

/-- Number of label-connected components of the tetrahedral star of a node,
under same-label face-adjacency traversal. -/
def componentCount (τ : Topo) (n : Nat) : Nat :=
  let st := starN_tets τ n
  countAux τ (st.length + 1) st

/-- Translation of update_flag(node_key): the three flags are the disjunction
of the flags of the edges in the star of the node; afterwards, a node that is
interface but not yet crossing becomes crossing when crossing(n) holds. -/
def update_flag_n (m : Mesh) (n : Nat) : Flags :=
  let es := starN_edges m.topo n
  let b := es.any (fun e => (m.fl.edge e).boundary)
  let i := es.any (fun e => (m.fl.edge e).interface)
  let c := es.any (fun e => (m.fl.edge e).crossing)
  ⟨b, i, if !c && i && crossing m.topo n then true else c⟩

/-- One face iteration of update(set): recompute the flags of an existing
face and store them. -/
def faceStep (m : Mesh) (f : Nat) : Mesh :=
  if f ∈ m.topo.facesLive then
    { m with fl := { m.fl with face := fun k => if k = f then update_flag_f m f else m.fl.face k } }
  else m

/-- One edge iteration of update(set). -/
def edgeStep (m : Mesh) (e : Nat) : Mesh :=
  if e ∈ m.topo.edgesLive then
    { m with fl := { m.fl with edge := fun k => if k = e then update_flag_e m e else m.fl.edge k } }
  else m

/-- One node iteration of update(set). -/
def nodeStep (m : Mesh) (n : Nat) : Mesh :=
  if n ∈ m.topo.nodesLive then
    { m with fl := { m.fl with node := fun k => if k = n then update_flag_n m n else m.fl.node k } }
  else m

/-- Translation of update(simplex_set): recompute the flags of every existing
face, then edge, then node of the set, in that order. -/
def update (m : Mesh) (S : SimplexSet) : Mesh :=
  S.ns.foldl nodeStep (S.es.foldl edgeStep (S.fs.foldl faceStep m))

/-- Modelled from the spec: the closure of a tetrahedron as a simplex set,
the tetrahedron itself, its bounding faces, their edges and their nodes. -/
def closure_t_set (τ : Topo) (t : Nat) : SimplexSet :=
  ⟨tetNodes τ t, tetEdges τ t, τ.tetFaces t, [t]⟩

/-- Translation of set_label(tet_key, label): store the new label, then
update the flags on the closure of the tetrahedron. -/
def set_label (m : Mesh) (t : Nat) (l : Int) : Mesh :=
  let m1 : Mesh := { m with topo := { m.topo with label := fun k => if k = t then l else m.topo.label k } }
  update m1 (closure_t_set m1.topo t)

/-- Modelled from the spec: the closure of the star of a node as a simplex
set, used by collapse to delimit the flag-update region. -/
def closure_of_star_n (τ : Topo) (n : Nat) : SimplexSet :=
  ⟨(((starN_edges τ n).map τ.edgeNodes).flatten ++ ((starN_faces τ n).map (faceNodes τ)).flatten
      ++ ((starN_tets τ n).map (tetNodes τ)).flatten).dedup,
   (starN_edges τ n ++ ((starN_faces τ n).map τ.faceEdges).flatten
      ++ ((starN_tets τ n).map (tetEdges τ)).flatten).dedup,
   (starN_faces τ n ++ ((starN_tets τ n).map τ.tetFaces).flatten).dedup,
   starN_tets τ n⟩

/-- Modelled from the spec: the kernel edge_collapse_helper (is_mesh.h, not
under src), abstracted by its contract.  It merges the two endpoint nodes of
the edge into one of them, returning the surviving node key and the mutated
mesh; when the kernel refuses the collapse (for example because it would
violate manifoldness) it returns an invalid key and performs no mutation at
all, per spec section 7 and the edge-collapse-degeneracy scenario. -/
structure CollapseKernel where
  helper : Mesh → Nat → Nat → Nat → Option Nat × Mesh
  refusal_clean : ∀ m e a b, (helper m e a b).1 = none → (helper m e a b).2 = m
  survivor_mem : ∀ m e a b n, (helper m e a b).1 = some n → n = a ∨ n = b

/-- Translation of collapse(edge_key): read the two endpoint nodes, call the
kernel helper on them; if the returned key is invalid, return it at once
(without any flag update); otherwise update the flags on the closure of the
star of the surviving node and return it, together with the mutated mesh. -/
def collapse (K : CollapseKernel) (m : Mesh) (e : Nat) : Option Nat × Mesh :=
  match m.topo.edgeNodes e with
  | [n0, n1] =>
    match (K.helper m e n0 n1).1 with
    | none => (none, (K.helper m e n0 n1).2)
    | some n =>
      (some n, update (K.helper m e n0 n1).2 (closure_of_star_n (K.helper m e n0 n1).2.topo n))
  | _ => (none, m)

/-- Modelled from the spec: the kernel split_tetrahedron (is_mesh.h, not
under src), the 1-to-4 subdivision of a live tetrahedron.  A fresh node is
allocated, a fresh edge joins it to each of the 4 original nodes, a fresh
face joins it to each of the 6 original edges (the face consists of that
edge and the two fresh edges to its endpoints), and a fresh tetrahedron sits
over each of the 4 original faces (that face plus the three fresh faces over
its edges); the parent tetrahedron is removed.  Labels are untouched; the
api layer reassigns them afterwards. -/
def split_tetrahedron (m : Mesh) (t : Nat) : Nat × Mesh :=
  let τ := m.topo
  let ns := tetNodes τ t
  let es := tetEdges τ t
  let fs := τ.tetFaces t
  (τ.nextNode,
   { m with topo :=
     { τ with
       nodesLive := τ.nextNode :: τ.nodesLive
       edgesLive := (List.range ns.length).map (fun i => τ.nextEdge + i) ++ τ.edgesLive
       facesLive := (List.range es.length).map (fun j => τ.nextFace + j) ++ τ.facesLive
       tetsLive := (List.range fs.length).map (fun i => τ.nextTet + i) ++ τ.tetsLive.erase t
       nextNode := τ.nextNode + 1
       nextEdge := τ.nextEdge + ns.length
       nextFace := τ.nextFace + es.length
       nextTet := τ.nextTet + fs.length
       edgeNodes := fun k =>
         if τ.nextEdge ≤ k ∧ k < τ.nextEdge + ns.length then
           [τ.nextNode, ns.getD (k - τ.nextEdge) 0]
         else τ.edgeNodes k
       faceEdges := fun k =>
         if τ.nextFace ≤ k ∧ k < τ.nextFace + es.length then
           es.getD (k - τ.nextFace) 0 ::
             (τ.edgeNodes (es.getD (k - τ.nextFace) 0)).map
               (fun x => τ.nextEdge + ns.indexOf x)
         else τ.faceEdges k
       tetFaces := fun k =>
         if τ.nextTet ≤ k ∧ k < τ.nextTet + fs.length then
           fs.getD (k - τ.nextTet) 0 ::
             (τ.faceEdges (fs.getD (k - τ.nextTet) 0)).map
               (fun e => τ.nextFace + es.indexOf e)
         else τ.tetFaces k } })

/-- Translation of split(tet_key): remember the label of t, call the kernel
subdivision, give every tetrahedron in the star of the new node the
remembered label through set_label, then update the flags on the star of the
new node with the node itself inserted, and return the new node. -/
def split (m : Mesh) (t : Nat) : Nat × Mesh :=
  let lab := m.topo.label t
  let r := split_tetrahedron m t
  let m2 := (starN_tets r.2.topo r.1).foldl (fun acc tt => set_label acc tt lab) r.2
  (r.1,
   update m2 ⟨[r.1], starN_edges m2.topo r.1, starN_faces m2.topo r.1, starN_tets m2.topo r.1⟩)

/-- Number of live tetrahedra carrying a given region label. -/
def countLabel (τ : Topo) (l : Int) : Nat :=
  (τ.tetsLive.filter (fun t => decide (τ.label t = l))).length

/-- Modelled from the spec: the kernel split_edge_helper (is_mesh.h, not
under src), abstracted as an uninterpreted subdivision primitive: it returns
the fresh node, the mutated mesh, and the child-to-parent map of the new
tetrahedra whose labels the api layer restores. -/
structure SplitEdgeKernel where
  helper : Mesh → Nat → Nat × Mesh × List (Nat × Nat)

/-- Translation of split(edge_key): remember the labels of the tetrahedra
around the edge, call the kernel subdivision, restore each new tetrahedron
to the label of its parent, then update the flags on the star of the new
node with the node itself inserted. -/
def split_e (SK : SplitEdgeKernel) (m : Mesh) (e : Nat) : Nat × Mesh :=
  let r := SK.helper m e
  let m2 := r.2.2.foldl (fun acc pr => set_label acc pr.1 (m.topo.label pr.2)) r.2.1
  (r.1,
   update m2 ⟨[r.1], starN_edges m2.topo r.1, starN_faces m2.topo r.1, starN_tets m2.topo r.1⟩)

/-- Translation of flip_32(edge_key): take the first node n1 of the link of
the edge, split the edge obtaining the fresh node n2, look up the edge
joining n1 and n2, collapse it, and return the surviving node of that
collapse.  The invalid-key fallbacks correspond to configurations the source
rules out by debug assertions. -/
def flip_32 (SK : SplitEdgeKernel) (K : CollapseKernel) (m : Mesh) (e : Nat) : Option Nat :=
  match linkE_nodes m.topo e with
  | [] => none
  | n1 :: _ =>
    match get_edge (split_e SK m e).2 n1 (split_e SK m e).1 with
    | none => none
    | some e2 => (collapse K (split_e SK m e).2 e2).1

/-! ### Concrete meshes used as witnesses -/

/-- A collapse kernel that refuses every collapse, satisfying the contract. -/
def alwaysRefuse : CollapseKernel where
  helper := fun m _ _ _ => (none, m)
  refusal_clean := fun _ _ _ _ _ => rfl
  survivor_mem := fun _ _ _ _ _ h => by cases h

/-- The all-false flag assignment, the state of a freshly ingested mesh
before the initial flag pass. -/
def flagsOff : FlagMap :=
  ⟨fun _ => ⟨false, false, false⟩, fun _ => ⟨false, false, false⟩, fun _ => ⟨false, false, false⟩⟩

/-- Concrete topology: one tetrahedron on nodes 0,1,2,3 at positions
(0,0,0), (1,0,0), (0,1,0), (0,0,1), with label 5. -/
def T1 : Topo where
  nodesLive := [0, 1, 2, 3]
  edgesLive := [0, 1, 2, 3, 4, 5]
  facesLive := [0, 1, 2, 3]
  tetsLive := [0]
  nextNode := 4
  nextEdge := 6
  nextFace := 4
  nextTet := 1
  edgeNodes := fun e =>
    match e with
    | 0 => [0, 1] | 1 => [0, 2] | 2 => [0, 3] | 3 => [1, 2] | 4 => [1, 3] | 5 => [2, 3]
    | _ => []
  faceEdges := fun f =>
    match f with
    | 0 => [0, 1, 3] | 1 => [0, 2, 4] | 2 => [1, 2, 5] | 3 => [3, 4, 5]
    | _ => []
  tetFaces := fun t => match t with | 0 => [0, 1, 2, 3] | _ => []
  label := fun t => match t with | 0 => 5 | _ => 0
  pos := fun n =>
    match n with
    | 0 => (0, 0, 0) | 1 => (1, 0, 0) | 2 => (0, 1, 0) | 3 => (0, 0, 1) | _ => (0, 0, 0)

/-- Single-tetrahedron mesh with label 5 and all flags off. -/
def M1 : Mesh := ⟨T1, flagsOff⟩

/-- Concrete topology: two tetrahedra 0,1,2,3 and 0,1,2,4 sharing the face
on nodes 0,1,2, with labels 1 and 2. -/
def T2 : Topo where
  nodesLive := [0, 1, 2, 3, 4]
  edgesLive := [0, 1, 2, 3, 4, 5, 6, 7, 8]
  facesLive := [0, 1, 2, 3, 4, 5, 6]
  tetsLive := [0, 1]
  nextNode := 5
  nextEdge := 9
  nextFace := 7
  nextTet := 2
  edgeNodes := fun e =>
    match e with
    | 0 => [0, 1] | 1 => [0, 2] | 2 => [1, 2] | 3 => [0, 3] | 4 => [1, 3] | 5 => [2, 3]
    | 6 => [0, 4] | 7 => [1, 4] | 8 => [2, 4]
    | _ => []
  faceEdges := fun f =>
    match f with
    | 0 => [0, 1, 2] | 1 => [0, 3, 4] | 2 => [1, 3, 5] | 3 => [2, 4, 5]
    | 4 => [0, 6, 7] | 5 => [1, 6, 8] | 6 => [2, 7, 8]
    | _ => []
  tetFaces := fun t => match t with | 0 => [0, 1, 2, 3] | 1 => [0, 4, 5, 6] | _ => []
  label := fun t => match t with | 0 => 1 | 1 => 2 | _ => 0
  pos := fun _ => (0, 0, 0)

/-- Two-tetrahedron mesh with labels 1 and 2 and all flags off. -/
def M2 : Mesh := ⟨T2, flagsOff⟩

/-- Concrete topology: three tetrahedra sharing the interior edge on nodes
0 and 1, the classical 3-2 flip configuration; the link of that edge is the
node triple 2, 3, 4. -/
def T3 : Topo where
  nodesLive := [0, 1, 2, 3, 4]
  edgesLive := [0, 1, 2, 3, 4, 5, 6, 7, 8, 9]
  facesLive := [0, 1, 2, 3, 4, 5, 6, 7, 8]
  tetsLive := [0, 1, 2]
  nextNode := 5
  nextEdge := 10
  nextFace := 9
  nextTet := 3
  edgeNodes := fun e =>
    match e with
    | 0 => [0, 1] | 1 => [0, 2] | 2 => [0, 3] | 3 => [0, 4] | 4 => [1, 2]
    | 5 => [1, 3] | 6 => [1, 4] | 7 => [2, 3] | 8 => [3, 4] | 9 => [2, 4]
    | _ => []
  faceEdges := fun f =>
    match f with
    | 0 => [0, 1, 4] | 1 => [0, 2, 5] | 2 => [0, 3, 6] | 3 => [1, 2, 7] | 4 => [4, 5, 7]
    | 5 => [2, 3, 8] | 6 => [5, 6, 8] | 7 => [3, 1, 9] | 8 => [6, 4, 9]
    | _ => []
  tetFaces := fun t =>
    match t with
    | 0 => [0, 1, 3, 4] | 1 => [1, 2, 5, 6] | 2 => [2, 0, 7, 8]
    | _ => []
  label := fun _ => 1
  pos := fun _ => (0, 0, 0)

/-- Three-tetrahedron mesh around an interior edge, all flags off. -/
def M3 : Mesh := ⟨T3, flagsOff⟩

/-- A small hand-built post-split state used by the toy edge-split kernel:
the link node 2 and the fresh node 10 joined by the single edge 50. -/
def M3s : Mesh :=
  ⟨{ nodesLive := [2, 10]
     edgesLive := [50]
     facesLive := []
     tetsLive := []
     nextNode := 11
     nextEdge := 51
     nextFace := 0
     nextTet := 0
     edgeNodes := fun e => match e with | 50 => [10, 2] | _ => []
     faceEdges := fun _ => []
     tetFaces := fun _ => []
     label := fun _ => 1
     pos := fun _ => (0, 0, 0) }, flagsOff⟩

/-- A toy edge-split kernel: it returns the fresh node 10, the hand-built
post-split mesh, and no child-to-parent pairs. -/
def SK3 : SplitEdgeKernel where
  helper := fun _ _ => (10, M3s, [])

/-- A collapse kernel that always merges the first endpoint into the second
and returns the second as the survivor, satisfying the contract. -/
def collapseIntoSecond : CollapseKernel where
  helper := fun m _ _ b => (some b, m)
  refusal_clean := fun _ _ _ _ h => by cases h
  survivor_mem := fun _ _ _ _ _ h => Or.inr (Option.some.inj h).symm

/-! ### Helper lemmas -/

theorem uniqueResult_eq_some {l : List Nat} (hl : l.Nodup) (x : Nat) :
    uniqueResult l = some x ↔ x ∈ l ∧ ∀ y ∈ l, y = x := by
  match l with
  | [] => simp [uniqueResult]
  | [a] => simp [uniqueResult, eq_comm]
  | a :: b :: r =>
    simp only [uniqueResult]
    constructor
    · intro h; cases h
    · rintro ⟨-, hall⟩
      have hab : a = b := (hall a (by simp)).trans (hall b (by simp)).symm
      simp [hab] at hl

theorem uniqueResult_eq_none {l : List Nat} (hl : l.Nodup) :
    uniqueResult l = none ↔ ¬ ∃ x, x ∈ l ∧ ∀ y ∈ l, y = x := by
  constructor
  · rintro h ⟨x, hx⟩
    rw [← uniqueResult_eq_some hl x] at hx
    rw [h] at hx
    cases hx
  · intro h
    cases hur : uniqueResult l with
    | none => rfl
    | some x =>
      exact absurd ⟨x, (uniqueResult_eq_some hl x).mp hur⟩ h

theorem mem_starN_edges {τ : Topo} {n e : Nat} :
    e ∈ starN_edges τ n ↔ e ∈ τ.edgesLive ∧ n ∈ τ.edgeNodes e := by
  simp [starN_edges]

theorem nodup_starN_edges {τ : Topo} (h : τ.edgesLive.Nodup) (n : Nat) :
    (starN_edges τ n).Nodup :=
  h.filter _

theorem nodup_starN_faces {τ : Topo} (h : τ.facesLive.Nodup) (n : Nat) :
    (starN_faces τ n).Nodup :=
  h.filter _

/-! ### Claims -/

/-- C10: get_tet(t, f) returns a tetrahedron of the star of f different from
t whenever one exists, and an invalid key when every co-tetrahedron of f is
t itself; being a total function it never fails. -/
theorem get_tet_spec (τ : Topo) (t f : Nat) :
    ((∃ t2, t2 ∈ starF_tets τ f ∧ t2 ≠ t) →
      ∃ t2, get_tet τ t f = some t2 ∧ t2 ∈ starF_tets τ f ∧ t2 ≠ t)
  ∧ ((∀ t2 ∈ starF_tets τ f, t2 = t) → get_tet τ t f = none) := by
  constructor
  · rintro ⟨t2, ht2, hne⟩
    have hs : ((starF_tets τ f).find? (fun x => x != t)).isSome := by
      rw [List.find?_isSome]
      exact ⟨t2, ht2, by simpa using hne⟩
    obtain ⟨t3, h3⟩ := Option.isSome_iff_exists.mp hs
    refine ⟨t3, h3, List.mem_of_find?_eq_some h3, ?_⟩
    simpa using List.find?_some h3
  · intro hall
    rw [get_tet, List.find?_eq_none]
    intro x hx
    simpa using hall x hx

/-- Witness for C10 on the two-tetrahedron mesh: the shared face 0 seen from
tetrahedron 0 has the co-tetrahedron 1, while the boundary face 1 seen from
tetrahedron 0 has no other co-tetrahedron. -/
theorem get_tet_spec_witness :
    ((∃ t2, t2 ∈ starF_tets M2.topo 0 ∧ t2 ≠ 0) ∧
      ∃ t2, get_tet M2.topo 0 0 = some t2 ∧ t2 ∈ starF_tets M2.topo 0 ∧ t2 ≠ 0) ∧
    ((∀ t2 ∈ starF_tets M2.topo 1, t2 = 0) ∧ get_tet M2.topo 0 1 = none) :=
  ⟨⟨by decide, (get_tet_spec M2.topo 0 0).1 (by decide)⟩,
   ⟨by decide, (get_tet_spec M2.topo 0 1).2 (by decide)⟩⟩

/-- C5: get_edge(n1, n2) returns the unique edge of the intersection of the
two node stars when exactly one exists, and an invalid key when no unique
such edge exists; likewise get_face over three node stars; both are total
functions and never throw. -/
theorem get_edge_get_face_unique (m : Mesh)
    (hE : m.topo.edgesLive.Nodup) (hF : m.topo.facesLive.Nodup) (n1 n2 n3 : Nat) :
    (∀ e, (e ∈ starN_edges m.topo n1 ∧ e ∈ starN_edges m.topo n2 ∧
        ∀ e2, e2 ∈ starN_edges m.topo n1 → e2 ∈ starN_edges m.topo n2 → e2 = e) →
      get_edge m n1 n2 = some e)
  ∧ ((¬ ∃ e, e ∈ starN_edges m.topo n1 ∧ e ∈ starN_edges m.topo n2 ∧
        ∀ e2, e2 ∈ starN_edges m.topo n1 → e2 ∈ starN_edges m.topo n2 → e2 = e) →
      get_edge m n1 n2 = none)
  ∧ (∀ e, get_edge m n1 n2 = some e →
      e ∈ starN_edges m.topo n1 ∧ e ∈ starN_edges m.topo n2)
  ∧ (∀ f, (f ∈ starN_faces m.topo n1 ∧ f ∈ starN_faces m.topo n2 ∧ f ∈ starN_faces m.topo n3 ∧
        ∀ f2, f2 ∈ starN_faces m.topo n1 → f2 ∈ starN_faces m.topo n2 →
          f2 ∈ starN_faces m.topo n3 → f2 = f) →
      get_face m n1 n2 n3 = some f)
  ∧ ((¬ ∃ f, f ∈ starN_faces m.topo n1 ∧ f ∈ starN_faces m.topo n2 ∧ f ∈ starN_faces m.topo n3 ∧
        ∀ f2, f2 ∈ starN_faces m.topo n1 → f2 ∈ starN_faces m.topo n2 →
          f2 ∈ starN_faces m.topo n3 → f2 = f) →
      get_face m n1 n2 n3 = none)
  ∧ (∀ f, get_face m n1 n2 n3 = some f →
      f ∈ starN_faces m.topo n1 ∧ f ∈ starN_faces m.topo n2 ∧ f ∈ starN_faces m.topo n3) := by
  have hEd : ((starN_edges m.topo n1).filter
      (fun e => decide (e ∈ starN_edges m.topo n2))).Nodup :=
    (nodup_starN_edges hE n1).filter _
  have hFd : (((starN_faces m.topo n1).filter
      (fun f => decide (f ∈ starN_faces m.topo n2))).filter
      (fun f => decide (f ∈ starN_faces m.topo n3))).Nodup :=
    ((nodup_starN_faces hF n1).filter _).filter _
  have hmemE : ∀ x, x ∈ (starN_edges m.topo n1).filter
      (fun e => decide (e ∈ starN_edges m.topo n2)) ↔
      x ∈ starN_edges m.topo n1 ∧ x ∈ starN_edges m.topo n2 := by
    intro x; simp
  have hmemF : ∀ x, x ∈ ((starN_faces m.topo n1).filter
      (fun f => decide (f ∈ starN_faces m.topo n2))).filter
      (fun f => decide (f ∈ starN_faces m.topo n3)) ↔
      x ∈ starN_faces m.topo n1 ∧ x ∈ starN_faces m.topo n2 ∧ x ∈ starN_faces m.topo n3 := by
    intro x
    simp only [List.mem_filter, decide_eq_true_eq]
    tauto
  refine ⟨?_, ?_, ?_, ?_, ?_, ?_⟩
  · intro e ⟨h1, h2, hu⟩
    rw [get_edge, uniqueResult_eq_some hEd]
    refine ⟨(hmemE e).mpr ⟨h1, h2⟩, ?_⟩
    intro y hy
    obtain ⟨hy1, hy2⟩ := (hmemE y).mp hy
    exact hu y hy1 hy2
  · intro hne
    rw [get_edge, uniqueResult_eq_none hEd]
    rintro ⟨x, hx, hall⟩
    obtain ⟨hx1, hx2⟩ := (hmemE x).mp hx
    exact hne ⟨x, hx1, hx2, fun y hy1 hy2 => hall y ((hmemE y).mpr ⟨hy1, hy2⟩)⟩
  · intro e he
    rw [get_edge, uniqueResult_eq_some hEd] at he
    exact (hmemE e).mp he.1
  · intro f ⟨h1, h2, h3, hu⟩
    rw [get_face, uniqueResult_eq_some hFd]
    refine ⟨(hmemF f).mpr ⟨h1, h2, h3⟩, ?_⟩
    intro y hy
    obtain ⟨hy1, hy2, hy3⟩ := (hmemF y).mp hy
    exact hu y hy1 hy2 hy3
  · intro hne
    rw [get_face, uniqueResult_eq_none hFd]
    rintro ⟨x, hx, hall⟩
    obtain ⟨hx1, hx2, hx3⟩ := (hmemF x).mp hx
    exact hne ⟨x, hx1, hx2, hx3, fun y hy1 hy2 hy3 => hall y ((hmemF y).mpr ⟨hy1, hy2, hy3⟩)⟩
  · intro f hf
    rw [get_face, uniqueResult_eq_some hFd] at hf
    exact (hmemF f).mp hf.1

/-- Witness for C5 on the two-tetrahedron mesh, at nodes 0, 1, 2: the lookup
conclusions hold, and concretely the unique common edge of nodes 0 and 1 is
edge 0 and the unique common face of nodes 0, 1, 2 is face 0. -/
theorem get_edge_get_face_unique_witness :
    ((M2.topo.edgesLive.Nodup ∧ M2.topo.facesLive.Nodup) ∧
      (get_edge M2 0 1 = some 0 ∧ get_face M2 0 1 2 = some 0)) ∧
    (∀ e, (e ∈ starN_edges M2.topo 0 ∧ e ∈ starN_edges M2.topo 1 ∧
        ∀ e2, e2 ∈ starN_edges M2.topo 0 → e2 ∈ starN_edges M2.topo 1 → e2 = e) →
      get_edge M2 0 1 = some e) :=
  ⟨⟨⟨by decide, by decide⟩, ⟨by decide, by decide⟩⟩,
    (get_edge_get_face_unique M2 (by decide) (by decide) 0 1 2).1⟩

/-- C2: after update_flag on a face with one or two co-bounding tetrahedra,
the boundary flag holds iff the face has exactly one co-tetrahedron, and the
interface flag holds iff the face is boundary with a nonzero-label
co-tetrahedron or has two co-tetrahedra of differing labels. -/
theorem update_flag_f_spec (m : Mesh) (f : Nat)
    (h : (starF_tets m.topo f).length = 1 ∨ (starF_tets m.topo f).length = 2) :
    ((update_flag_f m f).boundary = true ↔ (starF_tets m.topo f).length = 1)
  ∧ ((update_flag_f m f).interface = true ↔
      (((starF_tets m.topo f).length = 1 ∧ ∀ t ∈ starF_tets m.topo f, m.topo.label t ≠ 0)
        ∨ ((starF_tets m.topo f).length = 2 ∧
            ∃ t1 ∈ starF_tets m.topo f, ∃ t2 ∈ starF_tets m.topo f,
              m.topo.label t1 ≠ m.topo.label t2))) := by
  rcases h with h1 | h2
  · obtain ⟨t, ht⟩ := List.length_eq_one.mp h1
    unfold update_flag_f
    rw [ht]
    simp
  · obtain ⟨a, b, hab⟩ := List.length_eq_two.mp h2
    unfold update_flag_f
    rw [hab]
    refine ⟨by simp, ?_⟩
    simp only [decide_eq_true_eq, List.length_cons, List.length_nil]
    constructor
    · intro hne
      right
      exact ⟨by simp, a, by simp, b, by simp, hne⟩
    · rintro (⟨hlen, -⟩ | ⟨-, t1, ht1, t2, ht2, hne⟩)
      · simp at hlen
      · have h1 : t1 = a ∨ t1 = b := by simpa using ht1
        have h2 : t2 = a ∨ t2 = b := by simpa using ht2
        rcases h1 with rfl | rfl <;> rcases h2 with rfl | rfl
        · exact absurd rfl hne
        · exact hne
        · exact fun h => hne h.symm
        · exact absurd rfl hne

/-- Witness for C2, the interface-flag scenario: in the mesh of two adjacent
tetrahedra with labels 1 and 2, the shared face 0 has two co-tetrahedra, and
after update_flag it is interface and not boundary. -/
theorem update_flag_f_spec_witness :
    ((((starF_tets M2.topo 0).length = 1 ∨ (starF_tets M2.topo 0).length = 2) ∧
      (((update_flag_f M2 0).boundary = true ↔ (starF_tets M2.topo 0).length = 1)
        ∧ ((update_flag_f M2 0).interface = true ↔
            (((starF_tets M2.topo 0).length = 1 ∧ ∀ t ∈ starF_tets M2.topo 0, M2.topo.label t ≠ 0)
              ∨ ((starF_tets M2.topo 0).length = 2 ∧
                  ∃ t1 ∈ starF_tets M2.topo 0, ∃ t2 ∈ starF_tets M2.topo 0,
                    M2.topo.label t1 ≠ M2.topo.label t2))))) ∧
      ((update_flag_f M2 0).interface = true ∧ (update_flag_f M2 0).boundary = false)) :=
  ⟨⟨Or.inr (by decide), update_flag_f_spec M2 0 (Or.inr (by decide))⟩, by decide, by decide⟩

/-- The early-exit component loop of crossing(node_key) agrees with the full
component count: starting with c components already removed, it reports true
exactly when at least 3 components exist in total. -/
theorem crossingAux_eq_countAux (τ : Topo) :
    ∀ fuel c st, c ≤ 2 → crossingAux τ fuel c st = decide (3 ≤ c + countAux τ fuel st) := by
  intro fuel
  induction fuel with
  | zero =>
    intro c st hc
    simp only [crossingAux, countAux]
    symm
    simpa using by omega
  | succ fuel ih =>
    intro c st hc
    match st with
    | [] =>
      simp only [crossingAux, countAux]
      symm
      simpa using by omega
    | t :: rest =>
      simp only [crossingAux, countAux]
      by_cases h2 : c = 2
      · subst h2
        simp only [if_pos rfl]
        symm
        simpa using by omega
      · rw [if_neg h2, ih (c+1) _ (by omega)]
        congr 1
        simp only [eq_iff_iff]
        omega

/-- crossing(node_key) holds exactly when the tetrahedral star of the node
has at least 3 label-connected components. -/
theorem crossing_eq_componentCount (τ : Topo) (n : Nat) :
    crossing τ n = decide (3 ≤ componentCount τ n) := by
  unfold crossing componentCount
  simpa using crossingAux_eq_countAux τ ((starN_tets τ n).length + 1) 0
    (starN_tets τ n) (by omega)

/-- C3: after update_flag on a node, the boundary, interface and crossing
flags are the disjunctions of the corresponding flags over the edges of the
node star, except that the crossing flag is additionally set when the node is
interface, not already crossing by that disjunction, and its tetrahedral star
decomposes into at least 3 label-connected components under same-label
face-adjacency traversal. -/
theorem update_flag_n_spec (m : Mesh) (n : Nat) :
    (update_flag_n m n).boundary = (starN_edges m.topo n).any (fun e => (m.fl.edge e).boundary)
  ∧ (update_flag_n m n).interface = (starN_edges m.topo n).any (fun e => (m.fl.edge e).interface)
  ∧ (update_flag_n m n).crossing =
      ((starN_edges m.topo n).any (fun e => (m.fl.edge e).crossing)
        || ((starN_edges m.topo n).any (fun e => (m.fl.edge e).interface)
            && !(starN_edges m.topo n).any (fun e => (m.fl.edge e).crossing)
            && decide (3 ≤ componentCount m.topo n))) := by
  refine ⟨rfl, rfl, ?_⟩
  have key : ∀ (c i x : Bool), (if !c && i && x then true else c) = (c || (i && !c && x)) := by
    decide
  show (if !(starN_edges m.topo n).any (fun e => (m.fl.edge e).crossing)
          && (starN_edges m.topo n).any (fun e => (m.fl.edge e).interface)
          && crossing m.topo n then true
        else (starN_edges m.topo n).any (fun e => (m.fl.edge e).crossing)) = _
  rw [crossing_eq_componentCount]
  exact key _ _ _

/-! ### Structure of the update folds -/

theorem faceStep_topo (m : Mesh) (f : Nat) : (faceStep m f).topo = m.topo := by
  unfold faceStep; split <;> rfl

theorem edgeStep_topo (m : Mesh) (e : Nat) : (edgeStep m e).topo = m.topo := by
  unfold edgeStep; split <;> rfl

theorem nodeStep_topo (m : Mesh) (n : Nat) : (nodeStep m n).topo = m.topo := by
  unfold nodeStep; split <;> rfl

theorem faceStep_fl_edge (m : Mesh) (f : Nat) : (faceStep m f).fl.edge = m.fl.edge := by
  unfold faceStep; split <;> rfl

theorem faceStep_fl_node (m : Mesh) (f : Nat) : (faceStep m f).fl.node = m.fl.node := by
  unfold faceStep; split <;> rfl

theorem edgeStep_fl_face (m : Mesh) (e : Nat) : (edgeStep m e).fl.face = m.fl.face := by
  unfold edgeStep; split <;> rfl

theorem edgeStep_fl_node (m : Mesh) (e : Nat) : (edgeStep m e).fl.node = m.fl.node := by
  unfold edgeStep; split <;> rfl

theorem nodeStep_fl_face (m : Mesh) (n : Nat) : (nodeStep m n).fl.face = m.fl.face := by
  unfold nodeStep; split <;> rfl

theorem nodeStep_fl_edge (m : Mesh) (n : Nat) : (nodeStep m n).fl.edge = m.fl.edge := by
  unfold nodeStep; split <;> rfl

theorem foldl_faceStep_topo : ∀ (l : List Nat) (m : Mesh), (l.foldl faceStep m).topo = m.topo := by
  intro l
  induction l with
  | nil => intro m; rfl
  | cons a l ih => intro m; rw [List.foldl_cons, ih, faceStep_topo]

theorem foldl_edgeStep_topo : ∀ (l : List Nat) (m : Mesh), (l.foldl edgeStep m).topo = m.topo := by
  intro l
  induction l with
  | nil => intro m; rfl
  | cons a l ih => intro m; rw [List.foldl_cons, ih, edgeStep_topo]

theorem foldl_nodeStep_topo : ∀ (l : List Nat) (m : Mesh), (l.foldl nodeStep m).topo = m.topo := by
  intro l
  induction l with
  | nil => intro m; rfl
  | cons a l ih => intro m; rw [List.foldl_cons, ih, nodeStep_topo]

theorem foldl_faceStep_fl_edge : ∀ (l : List Nat) (m : Mesh),
    (l.foldl faceStep m).fl.edge = m.fl.edge := by
  intro l
  induction l with
  | nil => intro m; rfl
  | cons a l ih => intro m; rw [List.foldl_cons, ih, faceStep_fl_edge]

theorem foldl_faceStep_fl_node : ∀ (l : List Nat) (m : Mesh),
    (l.foldl faceStep m).fl.node = m.fl.node := by
  intro l
  induction l with
  | nil => intro m; rfl
  | cons a l ih => intro m; rw [List.foldl_cons, ih, faceStep_fl_node]

theorem foldl_edgeStep_fl_face : ∀ (l : List Nat) (m : Mesh),
    (l.foldl edgeStep m).fl.face = m.fl.face := by
  intro l
  induction l with
  | nil => intro m; rfl
  | cons a l ih => intro m; rw [List.foldl_cons, ih, edgeStep_fl_face]

theorem foldl_edgeStep_fl_node : ∀ (l : List Nat) (m : Mesh),
    (l.foldl edgeStep m).fl.node = m.fl.node := by
  intro l
  induction l with
  | nil => intro m; rfl
  | cons a l ih => intro m; rw [List.foldl_cons, ih, edgeStep_fl_node]

theorem foldl_nodeStep_fl_face : ∀ (l : List Nat) (m : Mesh),
    (l.foldl nodeStep m).fl.face = m.fl.face := by
  intro l
  induction l with
  | nil => intro m; rfl
  | cons a l ih => intro m; rw [List.foldl_cons, ih, nodeStep_fl_face]

theorem foldl_nodeStep_fl_edge : ∀ (l : List Nat) (m : Mesh),
    (l.foldl nodeStep m).fl.edge = m.fl.edge := by
  intro l
  induction l with
  | nil => intro m; rfl
  | cons a l ih => intro m; rw [List.foldl_cons, ih, nodeStep_fl_edge]

theorem update_topo (m : Mesh) (S : SimplexSet) : (update m S).topo = m.topo := by
  unfold update
  rw [foldl_nodeStep_topo, foldl_edgeStep_topo, foldl_faceStep_topo]

theorem update_flag_f_crossing (m : Mesh) (f : Nat) :
    (update_flag_f m f).crossing = (m.fl.face f).crossing := by
  unfold update_flag_f
  rcases starF_tets m.topo f with _ | ⟨a, _ | ⟨b, _ | ⟨c, l⟩⟩⟩ <;> rfl

theorem update_flag_f_congr {m2 m : Mesh} (f : Nat) (h1 : m2.topo = m.topo)
    (h2 : (m2.fl.face f).crossing = (m.fl.face f).crossing) :
    update_flag_f m2 f = update_flag_f m f := by
  unfold update_flag_f
  rw [h1, h2]

theorem update_flag_e_congr {m2 m : Mesh} (e : Nat) (h1 : m2.topo = m.topo)
    (h2 : ∀ f, m2.fl.face f = m.fl.face f) :
    update_flag_e m2 e = update_flag_e m e := by
  unfold update_flag_e
  simp only [h1, h2]

theorem update_flag_n_congr {m2 m : Mesh} (n : Nat) (h1 : m2.topo = m.topo)
    (h2 : ∀ e, m2.fl.edge e = m.fl.edge e) :
    update_flag_n m2 n = update_flag_n m n := by
  unfold update_flag_n
  simp only [h1, h2]

theorem faceStep_fl_face (m : Mesh) (a k : Nat) :
    (faceStep m a).fl.face k =
      if a ∈ m.topo.facesLive ∧ k = a then update_flag_f m a else m.fl.face k := by
  unfold faceStep
  by_cases ha : a ∈ m.topo.facesLive
  · simp only [if_pos ha, true_and]
    by_cases hk : k = a <;> simp [hk, ha]
  · simp [ha]

theorem edgeStep_fl_edge (m : Mesh) (a k : Nat) :
    (edgeStep m a).fl.edge k =
      if a ∈ m.topo.edgesLive ∧ k = a then update_flag_e m a else m.fl.edge k := by
  unfold edgeStep
  by_cases ha : a ∈ m.topo.edgesLive
  · simp only [if_pos ha, true_and]
    by_cases hk : k = a <;> simp [hk, ha]
  · simp [ha]

theorem nodeStep_fl_node (m : Mesh) (a k : Nat) :
    (nodeStep m a).fl.node k =
      if a ∈ m.topo.nodesLive ∧ k = a then update_flag_n m a else m.fl.node k := by
  unfold nodeStep
  by_cases ha : a ∈ m.topo.nodesLive
  · simp only [if_pos ha, true_and]
    by_cases hk : k = a <;> simp [hk, ha]
  · simp [ha]

theorem faceStep_face_crossing (m : Mesh) (a k : Nat) :
    ((faceStep m a).fl.face k).crossing = (m.fl.face k).crossing := by
  rw [faceStep_fl_face]
  split
  · rename_i h
    rw [h.2, update_flag_f_crossing]
  · rfl

theorem foldl_faceStep_face : ∀ (l : List Nat) (m : Mesh) (k : Nat),
    (l.foldl faceStep m).fl.face k =
      if k ∈ l ∧ k ∈ m.topo.facesLive then update_flag_f m k else m.fl.face k := by
  intro l
  induction l with
  | nil => intro m k; simp
  | cons a l ih =>
    intro m k
    rw [List.foldl_cons, ih, faceStep_topo,
      update_flag_f_congr k (faceStep_topo m a) (faceStep_face_crossing m a k),
      faceStep_fl_face]
    by_cases hlive : k ∈ m.topo.facesLive
    · by_cases hl : k ∈ l
      · rw [if_pos ⟨hl, hlive⟩, if_pos ⟨List.mem_cons_of_mem a hl, hlive⟩]
      · rw [if_neg (fun h => hl h.1)]
        by_cases hka : k = a
        · subst hka
          rw [if_pos ⟨hlive, rfl⟩, if_pos ⟨List.mem_cons_self k l, hlive⟩]
        · rw [if_neg (fun h => hka h.2),
            if_neg (fun h => (List.mem_cons.mp h.1).elim hka hl)]
    · rw [if_neg (fun h => hlive h.2)]
      by_cases hka : k = a
      · subst hka
        rw [if_neg (fun h => hlive h.1), if_neg (fun h => hlive h.2)]
      · rw [if_neg (fun h => hka h.2), if_neg (fun h => hlive h.2)]

theorem foldl_edgeStep_edge : ∀ (l : List Nat) (m : Mesh) (k : Nat),
    (l.foldl edgeStep m).fl.edge k =
      if k ∈ l ∧ k ∈ m.topo.edgesLive then update_flag_e m k else m.fl.edge k := by
  intro l
  induction l with
  | nil => intro m k; simp
  | cons a l ih =>
    intro m k
    rw [List.foldl_cons, ih, edgeStep_topo,
      update_flag_e_congr k (edgeStep_topo m a) (fun f => congrFun (edgeStep_fl_face m a) f),
      edgeStep_fl_edge]
    by_cases hlive : k ∈ m.topo.edgesLive
    · by_cases hl : k ∈ l
      · rw [if_pos ⟨hl, hlive⟩, if_pos ⟨List.mem_cons_of_mem a hl, hlive⟩]
      · rw [if_neg (fun h => hl h.1)]
        by_cases hka : k = a
        · subst hka
          rw [if_pos ⟨hlive, rfl⟩, if_pos ⟨List.mem_cons_self k l, hlive⟩]
        · rw [if_neg (fun h => hka h.2),
            if_neg (fun h => (List.mem_cons.mp h.1).elim hka hl)]
    · rw [if_neg (fun h => hlive h.2)]
      by_cases hka : k = a
      · subst hka
        rw [if_neg (fun h => hlive h.1), if_neg (fun h => hlive h.2)]
      · rw [if_neg (fun h => hka h.2), if_neg (fun h => hlive h.2)]

theorem foldl_nodeStep_node : ∀ (l : List Nat) (m : Mesh) (k : Nat),
    (l.foldl nodeStep m).fl.node k =
      if k ∈ l ∧ k ∈ m.topo.nodesLive then update_flag_n m k else m.fl.node k := by
  intro l
  induction l with
  | nil => intro m k; simp
  | cons a l ih =>
    intro m k
    rw [List.foldl_cons, ih, nodeStep_topo,
      update_flag_n_congr k (nodeStep_topo m a) (fun e => congrFun (nodeStep_fl_edge m a) e),
      nodeStep_fl_node]
    by_cases hlive : k ∈ m.topo.nodesLive
    · by_cases hl : k ∈ l
      · rw [if_pos ⟨hl, hlive⟩, if_pos ⟨List.mem_cons_of_mem a hl, hlive⟩]
      · rw [if_neg (fun h => hl h.1)]
        by_cases hka : k = a
        · subst hka
          rw [if_pos ⟨hlive, rfl⟩, if_pos ⟨List.mem_cons_self k l, hlive⟩]
        · rw [if_neg (fun h => hka h.2),
            if_neg (fun h => (List.mem_cons.mp h.1).elim hka hl)]
    · rw [if_neg (fun h => hlive h.2)]
      by_cases hka : k = a
      · subst hka
        rw [if_neg (fun h => hlive h.1), if_neg (fun h => hlive h.2)]
      · rw [if_neg (fun h => hka h.2), if_neg (fun h => hlive h.2)]

theorem update_fl_face (m : Mesh) (S : SimplexSet) (k : Nat) :
    (update m S).fl.face k =
      if k ∈ S.fs ∧ k ∈ m.topo.facesLive then update_flag_f m k else m.fl.face k := by
  unfold update
  rw [foldl_nodeStep_fl_face, foldl_edgeStep_fl_face, foldl_faceStep_face]

theorem update_fl_edge (m : Mesh) (S : SimplexSet) (k : Nat) :
    (update m S).fl.edge k =
      if k ∈ S.es ∧ k ∈ m.topo.edgesLive then update_flag_e (S.fs.foldl faceStep m) k
      else m.fl.edge k := by
  unfold update
  rw [foldl_nodeStep_fl_edge, foldl_edgeStep_edge, foldl_faceStep_topo, foldl_faceStep_fl_edge]

theorem update_fl_node (m : Mesh) (S : SimplexSet) (k : Nat) :
    (update m S).fl.node k =
      if k ∈ S.ns ∧ k ∈ m.topo.nodesLive then
        update_flag_n (S.es.foldl edgeStep (S.fs.foldl faceStep m)) k
      else m.fl.node k := by
  unfold update
  rw [foldl_nodeStep_node, foldl_edgeStep_topo, foldl_faceStep_topo, foldl_edgeStep_fl_node,
    foldl_faceStep_fl_node]

theorem update_face_crossing (m : Mesh) (S : SimplexSet) (f : Nat) :
    ((update m S).fl.face f).crossing = (m.fl.face f).crossing := by
  rw [update_fl_face]
  split
  · rw [update_flag_f_crossing]
  · rfl

theorem update_flag_f_update (m : Mesh) (S : SimplexSet) (f : Nat) :
    update_flag_f (update m S) f = update_flag_f m f :=
  update_flag_f_congr f (update_topo m S) (update_face_crossing m S f)

theorem update_idem_face (m : Mesh) (S : SimplexSet) (k : Nat) :
    (update (update m S) S).fl.face k = (update m S).fl.face k := by
  rw [update_fl_face (update m S) S k, update_topo, update_flag_f_update, update_fl_face m S k]
  split <;> rfl

theorem update_flag_e_fold_update (m : Mesh) (S : SimplexSet) (e : Nat) :
    update_flag_e (S.fs.foldl faceStep (update m S)) e =
      update_flag_e (S.fs.foldl faceStep m) e := by
  apply update_flag_e_congr
  · rw [foldl_faceStep_topo, foldl_faceStep_topo, update_topo]
  · intro f
    rw [foldl_faceStep_face, foldl_faceStep_face, update_topo, update_flag_f_update,
      update_fl_face m S f]
    split <;> rfl

theorem update_idem_edge (m : Mesh) (S : SimplexSet) (k : Nat) :
    (update (update m S) S).fl.edge k = (update m S).fl.edge k := by
  rw [update_fl_edge (update m S) S k, update_topo, update_flag_e_fold_update,
    update_fl_edge m S k]
  split <;> rfl

theorem update_flag_n_fold_update (m : Mesh) (S : SimplexSet) (n : Nat) :
    update_flag_n (S.es.foldl edgeStep (S.fs.foldl faceStep (update m S))) n =
      update_flag_n (S.es.foldl edgeStep (S.fs.foldl faceStep m)) n := by
  apply update_flag_n_congr
  · rw [foldl_edgeStep_topo, foldl_edgeStep_topo, foldl_faceStep_topo, foldl_faceStep_topo,
      update_topo]
  · intro e
    rw [foldl_edgeStep_edge, foldl_edgeStep_edge, foldl_faceStep_topo, foldl_faceStep_topo,
      update_topo, foldl_faceStep_fl_edge, foldl_faceStep_fl_edge, update_flag_e_fold_update,
      update_fl_edge m S e]
    split <;> rfl

theorem update_idem_node (m : Mesh) (S : SimplexSet) (k : Nat) :
    (update (update m S) S).fl.node k = (update m S).fl.node k := by
  rw [update_fl_node (update m S) S k, update_topo, update_flag_n_fold_update,
    update_fl_node m S k]
  split <;> rfl

/-- C8: flag propagation is idempotent: running update twice in a row on the
same simplex set, with no intervening mutation, leaves every face, edge and
node with exactly the same boundary, interface and crossing flags as running
it once, because every flag is recomputed from the incidence neighborhood. -/
theorem update_idempotent (m : Mesh) (S : SimplexSet) (k : Nat) :
    (update (update m S) S).fl.face k = (update m S).fl.face k
  ∧ (update (update m S) S).fl.edge k = (update m S).fl.edge k
  ∧ (update (update m S) S).fl.node k = (update m S).fl.node k :=
  ⟨update_idem_face m S k, update_idem_edge m S k, update_idem_node m S k⟩

/-- C9: set_label(t, l) stores l as the label of t and touches nothing else
outside the closure of t: the labels of all other tetrahedra, the live key
lists, the incidence structure, the positions, and the flags of every face,
edge and node outside the closure of t are unchanged. -/
theorem set_label_frame (m : Mesh) (t : Nat) (l : Int) (t2 f2 e2 n2 : Nat)
    (ht : t2 ≠ t) (hf : f2 ∉ m.topo.tetFaces t) (he : e2 ∉ tetEdges m.topo t)
    (hn : n2 ∉ tetNodes m.topo t) :
    (set_label m t l).topo.label t = l
  ∧ (set_label m t l).topo.label t2 = m.topo.label t2
  ∧ (set_label m t l).topo.nodesLive = m.topo.nodesLive
  ∧ (set_label m t l).topo.edgesLive = m.topo.edgesLive
  ∧ (set_label m t l).topo.facesLive = m.topo.facesLive
  ∧ (set_label m t l).topo.tetsLive = m.topo.tetsLive
  ∧ (set_label m t l).topo.edgeNodes = m.topo.edgeNodes
  ∧ (set_label m t l).topo.faceEdges = m.topo.faceEdges
  ∧ (set_label m t l).topo.tetFaces = m.topo.tetFaces
  ∧ (set_label m t l).topo.pos = m.topo.pos
  ∧ (set_label m t l).fl.face f2 = m.fl.face f2
  ∧ (set_label m t l).fl.edge e2 = m.fl.edge e2
  ∧ (set_label m t l).fl.node n2 = m.fl.node n2 := by
  unfold set_label
  refine ⟨?_, ?_, ?_, ?_, ?_, ?_, ?_, ?_, ?_, ?_, ?_, ?_, ?_⟩
  · rw [update_topo]; simp
  · rw [update_topo]; simp [ht]
  · rw [update_topo]
  · rw [update_topo]
  · rw [update_topo]
  · rw [update_topo]
  · rw [update_topo]
  · rw [update_topo]
  · rw [update_topo]
  · rw [update_topo]
  · rw [update_fl_face, if_neg (fun h => hf h.1)]
  · rw [update_fl_edge, if_neg (fun h => he h.1)]
  · rw [update_fl_node, if_neg (fun h => hn h.1)]

/-- Witness for C9 on the two-tetrahedron mesh: relabelling tetrahedron 0
with 7 leaves the label of tetrahedron 1, the whole static structure, and the
flags of face 4, edge 6 and node 4 (all outside the closure of tetrahedron 0)
unchanged. -/
theorem set_label_frame_witness :
    (((1 : Nat) ≠ 0 ∧ (4 : Nat) ∉ M2.topo.tetFaces 0 ∧ (6 : Nat) ∉ tetEdges M2.topo 0 ∧
        (4 : Nat) ∉ tetNodes M2.topo 0) ∧
      ((set_label M2 0 7).topo.label 0 = 7
        ∧ (set_label M2 0 7).topo.label 1 = M2.topo.label 1
        ∧ (set_label M2 0 7).topo.nodesLive = M2.topo.nodesLive
        ∧ (set_label M2 0 7).topo.edgesLive = M2.topo.edgesLive
        ∧ (set_label M2 0 7).topo.facesLive = M2.topo.facesLive
        ∧ (set_label M2 0 7).topo.tetsLive = M2.topo.tetsLive
        ∧ (set_label M2 0 7).topo.edgeNodes = M2.topo.edgeNodes
        ∧ (set_label M2 0 7).topo.faceEdges = M2.topo.faceEdges
        ∧ (set_label M2 0 7).topo.tetFaces = M2.topo.tetFaces
        ∧ (set_label M2 0 7).topo.pos = M2.topo.pos
        ∧ (set_label M2 0 7).fl.face 4 = M2.fl.face 4
        ∧ (set_label M2 0 7).fl.edge 6 = M2.fl.edge 6
        ∧ (set_label M2 0 7).fl.node 4 = M2.fl.node 4)) :=
  ⟨⟨by decide, by decide, by decide, by decide⟩,
    set_label_frame M2 0 7 1 4 6 4 (by decide) (by decide) (by decide) (by decide)⟩

/-- C4: when the kernel refuses a requested edge collapse, collapse returns
the invalid node key and leaves the mesh completely unchanged: no simplex is
created, removed or merged and no flag or label is modified, because the
api layer returns before any flag update. -/
theorem collapse_refused (K : CollapseKernel) (m : Mesh) (e n0 n1 : Nat)
    (h : m.topo.edgeNodes e = [n0, n1])
    (hr : (K.helper m e n0 n1).1 = none) :
    collapse K m e = (none, m) := by
  unfold collapse
  simp only [h, hr, K.refusal_clean m e n0 n1 hr]

/-- Witness for C4: a kernel that refuses, applied to edge 0 of the
two-tetrahedron mesh, yields the invalid key and the identical mesh. -/
theorem collapse_refused_witness :
    (M2.topo.edgeNodes 0 = [0, 1] ∧ (alwaysRefuse.helper M2 0 0 1).1 = none) ∧
    collapse alwaysRefuse M2 0 = (none, M2) :=
  ⟨⟨rfl, rfl⟩, collapse_refused alwaysRefuse M2 0 0 1 rfl rfl⟩

/-! ### Structure of the tetrahedron split -/

theorem set_label_topo (mm : Mesh) (t : Nat) (l : Int) :
    (set_label mm t l).topo =
      { mm.topo with label := fun k => if k = t then l else mm.topo.label k } := by
  simp only [set_label, update_topo]

theorem foldl_set_label_fields (lab : Int) :
    ∀ (L : List Nat) (mm : Mesh),
      ((L.foldl (fun acc tt => set_label acc tt lab) mm).topo.nodesLive = mm.topo.nodesLive)
    ∧ ((L.foldl (fun acc tt => set_label acc tt lab) mm).topo.edgesLive = mm.topo.edgesLive)
    ∧ ((L.foldl (fun acc tt => set_label acc tt lab) mm).topo.facesLive = mm.topo.facesLive)
    ∧ ((L.foldl (fun acc tt => set_label acc tt lab) mm).topo.tetsLive = mm.topo.tetsLive)
    ∧ ((L.foldl (fun acc tt => set_label acc tt lab) mm).topo.edgeNodes = mm.topo.edgeNodes)
    ∧ ((L.foldl (fun acc tt => set_label acc tt lab) mm).topo.faceEdges = mm.topo.faceEdges)
    ∧ ((L.foldl (fun acc tt => set_label acc tt lab) mm).topo.tetFaces = mm.topo.tetFaces) := by
  intro L
  induction L with
  | nil => intro mm; exact ⟨rfl, rfl, rfl, rfl, rfl, rfl, rfl⟩
  | cons a L ih =>
    intro mm
    obtain ⟨h1, h2, h3, h4, h5, h6, h7⟩ := ih (set_label mm a lab)
    rw [List.foldl_cons]
    refine ⟨?_, ?_, ?_, ?_, ?_, ?_, ?_⟩
    · rw [h1, set_label_topo]
    · rw [h2, set_label_topo]
    · rw [h3, set_label_topo]
    · rw [h4, set_label_topo]
    · rw [h5, set_label_topo]
    · rw [h6, set_label_topo]
    · rw [h7, set_label_topo]

theorem foldl_set_label_label (lab : Int) :
    ∀ (L : List Nat) (mm : Mesh) (k : Nat),
      (L.foldl (fun acc tt => set_label acc tt lab) mm).topo.label k =
        if k ∈ L then lab else mm.topo.label k := by
  intro L
  induction L with
  | nil => intro mm k; simp
  | cons a L ih =>
    intro mm k
    rw [List.foldl_cons, ih, set_label_topo]
    by_cases hk : k ∈ L
    · rw [if_pos hk, if_pos (List.mem_cons_of_mem a hk)]
    · rw [if_neg hk]
      by_cases hka : k = a
      · subst hka; simp
      · simp [hka, hk]

theorem mem_tetEdges_of_mem_face {τ : Topo} {t f e : Nat} (hf : f ∈ τ.tetFaces t)
    (he : e ∈ τ.faceEdges f) : e ∈ tetEdges τ t := by
  unfold tetEdges
  rw [List.mem_dedup, List.mem_flatten]
  exact ⟨τ.faceEdges f, List.mem_map_of_mem _ hf, he⟩

theorem mem_tetNodes_of_mem_edge {τ : Topo} {t e x : Nat} (he : e ∈ tetEdges τ t)
    (hx : x ∈ τ.edgeNodes e) : x ∈ tetNodes τ t := by
  unfold tetNodes
  rw [List.mem_dedup, List.mem_flatten]
  exact ⟨τ.edgeNodes e, List.mem_map_of_mem _ he, hx⟩

theorem getD_mem_of_lt {l : List Nat} {i : Nat} (h : i < l.length) : l.getD i 0 ∈ l := by
  rw [List.getD_eq_getElem _ _ h]
  exact List.getElem_mem h

theorem getD_indexOf {l : List Nat} {a : Nat} (h : a ∈ l) : l.getD (l.indexOf a) 0 = a := by
  have hlt := List.indexOf_lt_length.mpr h
  rw [List.getD_eq_getElem _ _ hlt]
  exact List.getElem_indexOf hlt

theorem split_tetrahedron_fst (m : Mesh) (t : Nat) :
    (split_tetrahedron m t).1 = m.topo.nextNode := rfl

theorem split_tetrahedron_nodesLive (m : Mesh) (t : Nat) :
    (split_tetrahedron m t).2.topo.nodesLive = m.topo.nextNode :: m.topo.nodesLive := rfl

theorem split_tetrahedron_edgesLive (m : Mesh) (t : Nat) :
    (split_tetrahedron m t).2.topo.edgesLive =
      (List.range (tetNodes m.topo t).length).map (fun i => m.topo.nextEdge + i)
        ++ m.topo.edgesLive := rfl

theorem split_tetrahedron_facesLive (m : Mesh) (t : Nat) :
    (split_tetrahedron m t).2.topo.facesLive =
      (List.range (tetEdges m.topo t).length).map (fun j => m.topo.nextFace + j)
        ++ m.topo.facesLive := rfl

theorem split_tetrahedron_tetsLive (m : Mesh) (t : Nat) :
    (split_tetrahedron m t).2.topo.tetsLive =
      (List.range (m.topo.tetFaces t).length).map (fun i => m.topo.nextTet + i)
        ++ m.topo.tetsLive.erase t := rfl

theorem split_tetrahedron_label (m : Mesh) (t : Nat) :
    (split_tetrahedron m t).2.topo.label = m.topo.label := rfl

theorem split_tetrahedron_edgeNodes (m : Mesh) (t : Nat) (k : Nat) :
    (split_tetrahedron m t).2.topo.edgeNodes k =
      if m.topo.nextEdge ≤ k ∧ k < m.topo.nextEdge + (tetNodes m.topo t).length then
        [m.topo.nextNode, (tetNodes m.topo t).getD (k - m.topo.nextEdge) 0]
      else m.topo.edgeNodes k := rfl

theorem split_tetrahedron_faceEdges (m : Mesh) (t : Nat) (k : Nat) :
    (split_tetrahedron m t).2.topo.faceEdges k =
      if m.topo.nextFace ≤ k ∧ k < m.topo.nextFace + (tetEdges m.topo t).length then
        (tetEdges m.topo t).getD (k - m.topo.nextFace) 0 ::
          (m.topo.edgeNodes ((tetEdges m.topo t).getD (k - m.topo.nextFace) 0)).map
            (fun x => m.topo.nextEdge + (tetNodes m.topo t).indexOf x)
      else m.topo.faceEdges k := rfl

theorem split_tetrahedron_tetFaces (m : Mesh) (t : Nat) (k : Nat) :
    (split_tetrahedron m t).2.topo.tetFaces k =
      if m.topo.nextTet ≤ k ∧ k < m.topo.nextTet + (m.topo.tetFaces t).length then
        (m.topo.tetFaces t).getD (k - m.topo.nextTet) 0 ::
          (m.topo.faceEdges ((m.topo.tetFaces t).getD (k - m.topo.nextTet) 0)).map
            (fun e => m.topo.nextFace + (tetEdges m.topo t).indexOf e)
      else m.topo.tetFaces k := rfl

/-- The star of the fresh node after the modelled 1-to-4 subdivision consists
of exactly the 4 fresh tetrahedra: each fresh tetrahedron reaches the fresh
node through a fresh face and a fresh edge, and no surviving old tetrahedron
contains the fresh node. -/
theorem starN_tets_split (m : Mesh) (t : Nat)
    (hTl : ∀ t2 ∈ m.topo.tetsLive, t2 < m.topo.nextTet)
    (hFl : ∀ t2 ∈ m.topo.tetsLive, ∀ f ∈ m.topo.tetFaces t2, f < m.topo.nextFace)
    (hEl : ∀ t2 ∈ m.topo.tetsLive, ∀ f ∈ m.topo.tetFaces t2, ∀ e ∈ m.topo.faceEdges f,
        e < m.topo.nextEdge)
    (hIn : ∀ t2 ∈ m.topo.tetsLive, ∀ f ∈ m.topo.tetFaces t2, ∀ e ∈ m.topo.faceEdges f,
        ∀ x ∈ m.topo.edgeNodes e, x < m.topo.nextNode)
    (hF3 : ∀ f ∈ m.topo.tetFaces t, 0 < (m.topo.faceEdges f).length)
    (hE2 : ∀ e ∈ tetEdges m.topo t, 0 < (m.topo.edgeNodes e).length) :
    starN_tets (split_tetrahedron m t).2.topo (split_tetrahedron m t).1 =
      (List.range (m.topo.tetFaces t).length).map (fun i => m.topo.nextTet + i) := by
  unfold starN_tets
  rw [split_tetrahedron_fst, split_tetrahedron_tetsLive, List.filter_append]
  have h1 : ∀ a ∈ (List.range (m.topo.tetFaces t).length).map (fun i => m.topo.nextTet + i),
      ((split_tetrahedron m t).2.topo.tetFaces a).any
        (fun f => ((split_tetrahedron m t).2.topo.faceEdges f).any
          (fun e => decide (m.topo.nextNode ∈ (split_tetrahedron m t).2.topo.edgeNodes e)))
        = true := by
    intro a ha
    obtain ⟨i, hi, rfl⟩ : ∃ i, i < (m.topo.tetFaces t).length ∧ m.topo.nextTet + i = a := by
      obtain ⟨i, hi, hval⟩ := List.mem_map.mp ha
      exact ⟨i, List.mem_range.mp hi, hval⟩
    have hface : (split_tetrahedron m t).2.topo.tetFaces (m.topo.nextTet + i) =
        (m.topo.tetFaces t).getD i 0 ::
          (m.topo.faceEdges ((m.topo.tetFaces t).getD i 0)).map
            (fun e => m.topo.nextFace + (tetEdges m.topo t).indexOf e) := by
      rw [split_tetrahedron_tetFaces, if_pos ⟨Nat.le_add_right _ _, by omega⟩,
        Nat.add_sub_cancel_left]
    have hf0 : (m.topo.tetFaces t).getD i 0 ∈ m.topo.tetFaces t := getD_mem_of_lt hi
    have he0 : (m.topo.faceEdges ((m.topo.tetFaces t).getD i 0)).getD 0 0 ∈
        m.topo.faceEdges ((m.topo.tetFaces t).getD i 0) :=
      getD_mem_of_lt (hF3 _ hf0)
    have he0es : (m.topo.faceEdges ((m.topo.tetFaces t).getD i 0)).getD 0 0 ∈
        tetEdges m.topo t := mem_tetEdges_of_mem_face hf0 he0
    have hidx := List.indexOf_lt_length.mpr he0es
    have hfe : (split_tetrahedron m t).2.topo.faceEdges
        (m.topo.nextFace + (tetEdges m.topo t).indexOf
          ((m.topo.faceEdges ((m.topo.tetFaces t).getD i 0)).getD 0 0)) =
        (m.topo.faceEdges ((m.topo.tetFaces t).getD i 0)).getD 0 0 ::
          (m.topo.edgeNodes ((m.topo.faceEdges ((m.topo.tetFaces t).getD i 0)).getD 0 0)).map
            (fun x => m.topo.nextEdge + (tetNodes m.topo t).indexOf x) := by
      rw [split_tetrahedron_faceEdges, if_pos ⟨Nat.le_add_right _ _, by omega⟩,
        Nat.add_sub_cancel_left, getD_indexOf he0es]
    have hx0 : (m.topo.edgeNodes ((m.topo.faceEdges ((m.topo.tetFaces t).getD i 0)).getD 0 0)).getD 0 0
        ∈ m.topo.edgeNodes ((m.topo.faceEdges ((m.topo.tetFaces t).getD i 0)).getD 0 0) :=
      getD_mem_of_lt (hE2 _ he0es)
    have hx0ns : (m.topo.edgeNodes ((m.topo.faceEdges ((m.topo.tetFaces t).getD i 0)).getD 0 0)).getD 0 0
        ∈ tetNodes m.topo t := mem_tetNodes_of_mem_edge he0es hx0
    have hxidx := List.indexOf_lt_length.mpr hx0ns
    have hen : (split_tetrahedron m t).2.topo.edgeNodes
        (m.topo.nextEdge + (tetNodes m.topo t).indexOf
          ((m.topo.edgeNodes ((m.topo.faceEdges ((m.topo.tetFaces t).getD i 0)).getD 0 0)).getD 0 0)) =
        [m.topo.nextNode, (tetNodes m.topo t).getD ((tetNodes m.topo t).indexOf
          ((m.topo.edgeNodes ((m.topo.faceEdges ((m.topo.tetFaces t).getD i 0)).getD 0 0)).getD 0 0)) 0] := by
      rw [split_tetrahedron_edgeNodes, if_pos ⟨Nat.le_add_right _ _, by omega⟩,
        Nat.add_sub_cancel_left]
    rw [List.any_eq_true]
    refine ⟨m.topo.nextFace + (tetEdges m.topo t).indexOf
        ((m.topo.faceEdges ((m.topo.tetFaces t).getD i 0)).getD 0 0), ?_, ?_⟩
    · rw [hface]
      exact List.mem_cons_of_mem _ (List.mem_map_of_mem _ he0)
    · rw [List.any_eq_true]
      refine ⟨m.topo.nextEdge + (tetNodes m.topo t).indexOf
          ((m.topo.edgeNodes ((m.topo.faceEdges ((m.topo.tetFaces t).getD i 0)).getD 0 0)).getD 0 0),
        ?_, ?_⟩
      · rw [hfe]
        exact List.mem_cons_of_mem _ (List.mem_map_of_mem _ hx0)
      · rw [hen]
        simp
  have h2 : ∀ a ∈ m.topo.tetsLive.erase t,
      ¬ (((split_tetrahedron m t).2.topo.tetFaces a).any
        (fun f => ((split_tetrahedron m t).2.topo.faceEdges f).any
          (fun e => decide (m.topo.nextNode ∈ (split_tetrahedron m t).2.topo.edgeNodes e)))
        = true) := by
    intro a ha hcontra
    have ha2 : a ∈ m.topo.tetsLive := List.mem_of_mem_erase ha
    rw [split_tetrahedron_tetFaces, if_neg (fun h => by have := hTl a ha2; omega)] at hcontra
    obtain ⟨f, hfmem, hinner⟩ := List.any_eq_true.mp hcontra
    rw [split_tetrahedron_faceEdges,
      if_neg (fun h => by have := hFl a ha2 f hfmem; omega)] at hinner
    obtain ⟨e, hemem, hdec⟩ := List.any_eq_true.mp hinner
    rw [split_tetrahedron_edgeNodes,
      if_neg (fun h => by have := hEl a ha2 f hfmem e hemem; omega)] at hdec
    have := hIn a ha2 f hfmem e hemem _ (of_decide_eq_true hdec)
    omega
  rw [List.filter_eq_self.mpr h1, List.filter_eq_nil_iff.mpr h2, List.append_nil]

/-- The api layer of split changes, over the kernel subdivision result, only
the labels (of the tetrahedra in the star of the fresh node) and the flags. -/
theorem split_topo_fields (m : Mesh) (t : Nat) :
    ((split m t).1 = m.topo.nextNode)
  ∧ ((split m t).2.topo.nodesLive = (split_tetrahedron m t).2.topo.nodesLive)
  ∧ ((split m t).2.topo.edgesLive = (split_tetrahedron m t).2.topo.edgesLive)
  ∧ ((split m t).2.topo.facesLive = (split_tetrahedron m t).2.topo.facesLive)
  ∧ ((split m t).2.topo.tetsLive = (split_tetrahedron m t).2.topo.tetsLive)
  ∧ ((split m t).2.topo.edgeNodes = (split_tetrahedron m t).2.topo.edgeNodes)
  ∧ ((split m t).2.topo.faceEdges = (split_tetrahedron m t).2.topo.faceEdges)
  ∧ (∀ k, (split m t).2.topo.label k =
      if k ∈ starN_tets (split_tetrahedron m t).2.topo (split_tetrahedron m t).1
      then m.topo.label t else m.topo.label k) := by
  obtain ⟨g1, g2, g3, g4, g5, g6, g7⟩ :=
    foldl_set_label_fields (m.topo.label t)
      (starN_tets (split_tetrahedron m t).2.topo (split_tetrahedron m t).1)
      (split_tetrahedron m t).2
  refine ⟨rfl, ?_, ?_, ?_, ?_, ?_, ?_, ?_⟩
  · simp only [split, update_topo]; exact g1
  · simp only [split, update_topo]; exact g2
  · simp only [split, update_topo]; exact g3
  · simp only [split, update_topo]; exact g4
  · simp only [split, update_topo]; exact g5
  · simp only [split, update_topo]; exact g6
  · intro k
    simp only [split, update_topo]
    rw [foldl_set_label_label, split_tetrahedron_label]

/-- C6 (amended): splitting a live tetrahedron t with label L returns a fresh
node key and performs a 1-to-4 subdivision: exactly 4 fresh tetrahedra
replace t, each bearing L; 4 fresh edges join the fresh node to the original
nodes of t; 6 fresh faces each consist of one original edge of t and the two
fresh edges to its endpoints; and the per-label tetrahedron counts change
exactly by the subdivision multiplier, plus 3 for L and 0 elsewhere. -/
theorem split_tet_spec (m : Mesh) (t : Nat)
    (hT : t ∈ m.topo.tetsLive)
    (hTl : ∀ t2 ∈ m.topo.tetsLive, t2 < m.topo.nextTet)
    (hNl : ∀ n ∈ m.topo.nodesLive, n < m.topo.nextNode)
    (hFl : ∀ t2 ∈ m.topo.tetsLive, ∀ f ∈ m.topo.tetFaces t2, f < m.topo.nextFace)
    (hEl : ∀ t2 ∈ m.topo.tetsLive, ∀ f ∈ m.topo.tetFaces t2, ∀ e ∈ m.topo.faceEdges f,
        e < m.topo.nextEdge)
    (hIn : ∀ t2 ∈ m.topo.tetsLive, ∀ f ∈ m.topo.tetFaces t2, ∀ e ∈ m.topo.faceEdges f,
        ∀ x ∈ m.topo.edgeNodes e, x < m.topo.nextNode)
    (hF3 : ∀ f ∈ m.topo.tetFaces t, 0 < (m.topo.faceEdges f).length)
    (hE2 : ∀ e ∈ tetEdges m.topo t, 0 < (m.topo.edgeNodes e).length)
    (h4 : (m.topo.tetFaces t).length = 4)
    (h6 : (tetEdges m.topo t).length = 6)
    (h4n : (tetNodes m.topo t).length = 4) :
    ((split m t).1 = m.topo.nextNode ∧ (split m t).1 ∉ m.topo.nodesLive)
  ∧ ((split m t).2.topo.tetsLive =
      (List.range 4).map (fun i => m.topo.nextTet + i) ++ m.topo.tetsLive.erase t
    ∧ (split m t).2.topo.tetsLive.length = m.topo.tetsLive.length + 3)
  ∧ (∀ k ∈ (List.range 4).map (fun i => m.topo.nextTet + i),
      (split m t).2.topo.label k = m.topo.label t)
  ∧ ((split m t).2.topo.edgesLive =
      (List.range 4).map (fun i => m.topo.nextEdge + i) ++ m.topo.edgesLive
    ∧ ∀ k ∈ (List.range 4).map (fun i => m.topo.nextEdge + i),
        ∃ x ∈ tetNodes m.topo t, (split m t).2.topo.edgeNodes k = [m.topo.nextNode, x])
  ∧ ((split m t).2.topo.facesLive =
      (List.range 6).map (fun j => m.topo.nextFace + j) ++ m.topo.facesLive
    ∧ ∀ k ∈ (List.range 6).map (fun j => m.topo.nextFace + j),
        ∃ e ∈ tetEdges m.topo t,
          (split m t).2.topo.faceEdges k =
            e :: (m.topo.edgeNodes e).map
              (fun x => m.topo.nextEdge + (tetNodes m.topo t).indexOf x)
          ∧ ∀ x ∈ m.topo.edgeNodes e,
              m.topo.nextEdge + (tetNodes m.topo t).indexOf x ∈
                (List.range 4).map (fun i => m.topo.nextEdge + i))
  ∧ (∀ l : Int, countLabel (split m t).2.topo l =
      countLabel m.topo l + (if l = m.topo.label t then 3 else 0)) := by
  obtain ⟨p1, p2, p3, p4, p5, p6, p7, p8⟩ := split_topo_fields m t
  have hstar := starN_tets_split m t hTl hFl hEl hIn hF3 hE2
  have hTpos : 0 < m.topo.tetsLive.length := List.length_pos_of_mem hT
  refine ⟨⟨p1, ?_⟩, ⟨?_, ?_⟩, ?_, ⟨?_, ?_⟩, ⟨?_, ?_⟩, ?_⟩
  · rw [p1]
    intro hc
    have := hNl _ hc
    omega
  · rw [p5, split_tetrahedron_tetsLive, h4]
  · rw [p5, split_tetrahedron_tetsLive, List.length_append, List.length_map,
      List.length_range, h4, List.length_erase_of_mem hT]
    omega
  · intro k hk
    rw [p8, if_pos]
    rw [hstar, h4]
    exact hk
  · rw [p3, split_tetrahedron_edgesLive, h4n]
  · intro k hk
    obtain ⟨i, hi, rfl⟩ : ∃ i, i < 4 ∧ m.topo.nextEdge + i = k := by
      obtain ⟨i, hi, hval⟩ := List.mem_map.mp hk
      exact ⟨i, List.mem_range.mp hi, hval⟩
    refine ⟨(tetNodes m.topo t).getD i 0, getD_mem_of_lt (by omega), ?_⟩
    rw [p6, split_tetrahedron_edgeNodes, if_pos ⟨Nat.le_add_right _ _, by omega⟩,
      Nat.add_sub_cancel_left]
  · rw [p4, split_tetrahedron_facesLive, h6]
  · intro k hk
    obtain ⟨j, hj, rfl⟩ : ∃ j, j < 6 ∧ m.topo.nextFace + j = k := by
      obtain ⟨j, hj, hval⟩ := List.mem_map.mp hk
      exact ⟨j, List.mem_range.mp hj, hval⟩
    refine ⟨(tetEdges m.topo t).getD j 0, getD_mem_of_lt (by omega), ?_, ?_⟩
    · rw [p7, split_tetrahedron_faceEdges, if_pos ⟨Nat.le_add_right _ _, by omega⟩,
        Nat.add_sub_cancel_left]
    · intro x hx
      have hxn : x ∈ tetNodes m.topo t :=
        mem_tetNodes_of_mem_edge (getD_mem_of_lt (by omega)) hx
      have hxidx := List.indexOf_lt_length.mpr hxn
      exact List.mem_map.mpr ⟨(tetNodes m.topo t).indexOf x,
        List.mem_range.mpr (by omega), rfl⟩
  · intro l
    unfold countLabel
    rw [p5, split_tetrahedron_tetsLive, List.filter_append, List.length_append]
    have hcgA : ∀ a ∈ (List.range (m.topo.tetFaces t).length).map (fun i => m.topo.nextTet + i),
        decide ((split m t).2.topo.label a = l) = decide (m.topo.label t = l) := by
      intro a ha
      rw [p8, if_pos (by rw [hstar]; exact ha)]
    have hA : (((List.range (m.topo.tetFaces t).length).map (fun i => m.topo.nextTet + i)).filter
        (fun k => decide ((split m t).2.topo.label k = l))).length =
        if m.topo.label t = l then 4 else 0 := by
      rw [List.filter_congr hcgA]
      by_cases hq : m.topo.label t = l
      · simp [hq, h4]
      · simp [hq]
    have hcgB : ∀ a ∈ m.topo.tetsLive.erase t,
        decide ((split m t).2.topo.label a = l) = decide (m.topo.label a = l) := by
      intro a ha
      rw [p8, if_neg]
      rw [hstar]
      intro hc
      obtain ⟨i, hi, hval⟩ := List.mem_map.mp hc
      have := hTl a (List.mem_of_mem_erase ha)
      omega
    have hB : (((m.topo.tetsLive.erase t)).filter
        (fun k => decide ((split m t).2.topo.label k = l))).length =
        ((m.topo.tetsLive.erase t).filter (fun k => decide (m.topo.label k = l))).length := by
      rw [List.filter_congr hcgB]
    have hcount : (m.topo.tetsLive.filter (fun k => decide (m.topo.label k = l))).length =
        (if m.topo.label t = l then 1 else 0) +
          ((m.topo.tetsLive.erase t).filter (fun k => decide (m.topo.label k = l))).length := by
      have hperm := (List.perm_cons_erase hT).filter (fun k => decide (m.topo.label k = l))
      rw [hperm.length_eq, List.filter_cons]
      by_cases hq : m.topo.label t = l
      · simp [hq]
        omega
      · simp [hq]
    rw [hA, hB]
    by_cases hq : m.topo.label t = l
    · rw [if_pos hq, if_pos hq.symm]
      rw [if_pos hq] at hcount
      omega
    · rw [if_neg hq, if_neg (fun hc => hq hc.symm)]
      rw [if_neg hq] at hcount
      omega

/-- Counterexample for C6 as stated: on the single-tetrahedron mesh with
label 5 and corner positions (0,0,0), (1,0,0), (0,1,0), (0,0,1), the split
creates 4 new edges and 6 new faces, not 6 new edges and 4 new faces as the
claim asserts. -/
theorem split_tet_counts_cex :
    ¬ ((split M1 0).2.topo.edgesLive.length = M1.topo.edgesLive.length + 6
      ∧ (split M1 0).2.topo.facesLive.length = M1.topo.facesLive.length + 4) := by
  decide

theorem uniqueResult_mem {l : List Nat} {x : Nat} (h : uniqueResult l = some x) : x ∈ l := by
  cases l with
  | nil => simp [uniqueResult] at h
  | cons a tail =>
    cases tail with
    | nil =>
      simp only [uniqueResult, Option.some.injEq] at h
      subst h
      exact List.mem_singleton_self a
    | cons b r => simp [uniqueResult] at h

/-- C7: for an interior edge e (neither boundary nor interface) whose link
has exactly 3 nodes, flip_32 is realized as split(e) immediately followed by
collapse of the edge joining the first link node n1 to the fresh node; it
returns the surviving node of that collapse, and because the collapse merges
the fresh node into the pre-existing one, that survivor equals n1. -/
theorem flip_32_spec (SK : SplitEdgeKernel) (K : CollapseKernel) (m : Mesh)
    (e n1 e2 n3 a b : Nat) (rest : List Nat)
    (hbd : (m.fl.edge e).interface = false ∧ (m.fl.edge e).boundary = false)
    (hlk : linkE_nodes m.topo e = n1 :: rest)
    (hlen : (linkE_nodes m.topo e).length = 3)
    (hge : get_edge (split_e SK m e).2 n1 (split_e SK m e).1 = some e2)
    (hpair : (split_e SK m e).2.topo.edgeNodes e2 = [a, b])
    (hcol : (collapse K (split_e SK m e).2 e2).1 = some n3)
    (hne : n1 ≠ (split_e SK m e).1)
    (hnew : n3 ≠ (split_e SK m e).1) :
    flip_32 SK K m e = some n3 ∧ n3 = n1 := by
  constructor
  · simp only [flip_32, hlk, hge]
    exact hcol
  · have hm : e2 ∈ (starN_edges (split_e SK m e).2.topo n1).filter
        (fun x => decide (x ∈ starN_edges (split_e SK m e).2.topo (split_e SK m e).1)) := by
      unfold get_edge at hge
      exact uniqueResult_mem hge
    rw [List.mem_filter] at hm
    obtain ⟨hm1, hm2⟩ := hm
    have hm2b : e2 ∈ starN_edges (split_e SK m e).2.topo (split_e SK m e).1 :=
      of_decide_eq_true hm2
    have hn1 : n1 ∈ (split_e SK m e).2.topo.edgeNodes e2 := (mem_starN_edges.mp hm1).2
    have hn2 : (split_e SK m e).1 ∈ (split_e SK m e).2.topo.edgeNodes e2 :=
      (mem_starN_edges.mp hm2b).2
    rw [hpair] at hn1 hn2
    have hh : (K.helper (split_e SK m e).2 e2 a b).1 = some n3 := by
      simp only [collapse, hpair] at hcol
      cases hK : (K.helper (split_e SK m e).2 e2 a b).1 with
      | none => rw [hK] at hcol; cases hcol
      | some n =>
        rw [hK] at hcol
        exact hcol
    have hsurv := K.survivor_mem _ _ _ _ _ hh
    have hn1b : n1 = a ∨ n1 = b := by simpa using hn1
    have hn2b2 : (split_e SK m e).1 = a ∨ (split_e SK m e).1 = b := by simpa using hn2
    rcases hsurv with h3 | h3 <;> rcases hn1b with h1 | h1 <;> rcases hn2b2 with h2 | h2 <;> omega

/-- Witness for C7 on the three-tetrahedron configuration around the
interior edge 0: the link nodes are 2, 3, 4, the toy kernels split the edge
into fresh node 10 and collapse the connecting edge 50 into the link node 2,
and the flip returns that node. -/
theorem flip_32_spec_witness :
    ((((M3.fl.edge 0).interface = false ∧ (M3.fl.edge 0).boundary = false)
      ∧ linkE_nodes M3.topo 0 = 2 :: [3, 4]
      ∧ (linkE_nodes M3.topo 0).length = 3
      ∧ get_edge (split_e SK3 M3 0).2 2 (split_e SK3 M3 0).1 = some 50
      ∧ (split_e SK3 M3 0).2.topo.edgeNodes 50 = [10, 2]
      ∧ (collapse collapseIntoSecond (split_e SK3 M3 0).2 50).1 = some 2
      ∧ (2 : Nat) ≠ (split_e SK3 M3 0).1) ∧
    (flip_32 SK3 collapseIntoSecond M3 0 = some 2 ∧ (2 : Nat) = 2)) :=
  ⟨⟨⟨by decide, by decide⟩, by decide, by decide, by decide, by decide, by decide, by decide⟩,
   flip_32_spec SK3 collapseIntoSecond M3 0 2 50 2 10 2 [3, 4]
     ⟨by decide, by decide⟩ (by decide) (by decide) (by decide) (by decide) (by decide)
     (by decide) (by decide)⟩

/-- Witness for C6 on the single-tetrahedron mesh with label 5: the split
returns the fresh node 4, four fresh tetrahedra with label 5 replacing the
parent, four fresh edges to the original nodes, six fresh faces over the
original edges, and the label counts shift by 3 for label 5. -/
theorem split_tet_spec_witness :
    (((0 : Nat) ∈ M1.topo.tetsLive
      ∧ (∀ t2 ∈ M1.topo.tetsLive, t2 < M1.topo.nextTet)
      ∧ (∀ n ∈ M1.topo.nodesLive, n < M1.topo.nextNode)
      ∧ (∀ t2 ∈ M1.topo.tetsLive, ∀ f ∈ M1.topo.tetFaces t2, f < M1.topo.nextFace)
      ∧ (∀ t2 ∈ M1.topo.tetsLive, ∀ f ∈ M1.topo.tetFaces t2, ∀ e ∈ M1.topo.faceEdges f,
          e < M1.topo.nextEdge)
      ∧ (∀ t2 ∈ M1.topo.tetsLive, ∀ f ∈ M1.topo.tetFaces t2, ∀ e ∈ M1.topo.faceEdges f,
          ∀ x ∈ M1.topo.edgeNodes e, x < M1.topo.nextNode)
      ∧ (∀ f ∈ M1.topo.tetFaces 0, 0 < (M1.topo.faceEdges f).length)
      ∧ (∀ e ∈ tetEdges M1.topo 0, 0 < (M1.topo.edgeNodes e).length)
      ∧ (M1.topo.tetFaces 0).length = 4
      ∧ (tetEdges M1.topo 0).length = 6
      ∧ (tetNodes M1.topo 0).length = 4) ∧
    (((split M1 0).1 = M1.topo.nextNode ∧ (split M1 0).1 ∉ M1.topo.nodesLive)
  ∧ ((split M1 0).2.topo.tetsLive =
      (List.range 4).map (fun i => M1.topo.nextTet + i) ++ M1.topo.tetsLive.erase 0
    ∧ (split M1 0).2.topo.tetsLive.length = M1.topo.tetsLive.length + 3)
  ∧ (∀ k ∈ (List.range 4).map (fun i => M1.topo.nextTet + i),
      (split M1 0).2.topo.label k = M1.topo.label 0)
  ∧ ((split M1 0).2.topo.edgesLive =
      (List.range 4).map (fun i => M1.topo.nextEdge + i) ++ M1.topo.edgesLive
    ∧ ∀ k ∈ (List.range 4).map (fun i => M1.topo.nextEdge + i),
        ∃ x ∈ tetNodes M1.topo 0, (split M1 0).2.topo.edgeNodes k = [M1.topo.nextNode, x])
  ∧ ((split M1 0).2.topo.facesLive =
      (List.range 6).map (fun j => M1.topo.nextFace + j) ++ M1.topo.facesLive
    ∧ ∀ k ∈ (List.range 6).map (fun j => M1.topo.nextFace + j),
        ∃ e ∈ tetEdges M1.topo 0,
          (split M1 0).2.topo.faceEdges k =
            e :: (M1.topo.edgeNodes e).map
              (fun x => M1.topo.nextEdge + (tetNodes M1.topo 0).indexOf x)
          ∧ ∀ x ∈ M1.topo.edgeNodes e,
              M1.topo.nextEdge + (tetNodes M1.topo 0).indexOf x ∈
                (List.range 4).map (fun i => M1.topo.nextEdge + i))
  ∧ (∀ l : Int, countLabel (split M1 0).2.topo l =
      countLabel M1.topo l + (if l = M1.topo.label 0 then 3 else 0)))) :=
  ⟨⟨by decide, by decide, by decide, by decide, by decide, by decide, by decide, by decide,
    by decide, by decide, by decide⟩,
   split_tet_spec M1 0 (by decide) (by decide) (by decide) (by decide) (by decide) (by decide)
     (by decide) (by decide) (by decide) (by decide) (by decide)⟩

